import Mathlib

/-!
Verification development for the cafe-engine core: a shallow embedding of the
isometric coordinate system, tile map traversal, sprite-sheet animation,
entity/component runtime and scene stack, translated from the C++ sources
(`src/engine/isometric.cpp`, `entity.h/cpp`, `scene.h/cpp`,
`sprite_sheet.h/cpp`), together with theorems settling the specified
properties.  C++ `float` values are modelled as exact rationals (`ℚ`);
machine ints as `Int`; `std::unordered_map` as an association list whose
order stands for the (unspecified) iteration order; `std::sort` as a sort
producing some output that is non-decreasing under the comparator.
-/

/-- 2D vector with rational components (models `Vec2` with `float` fields). -/
structure Vec2 where
  x : ℚ
  y : ℚ
deriving DecidableEq

/-- Screen-space rectangle (models `Rect`). -/
structure Rect where
  x : ℚ
  y : ℚ
  width : ℚ
  height : ℚ
deriving DecidableEq

/-- UV sub-rectangle of a texture (models `TextureRegion`). -/
structure TextureRegion where
  u0 : ℚ
  v0 : ℚ
  u1 : ℚ
  v1 : ℚ
deriving DecidableEq

/-- RGBA colour (models `Color`). -/
structure Color where
  r : ℚ
  g : ℚ
  b : ℚ
  a : ℚ
deriving DecidableEq

def Color.white : Color := ⟨1, 1, 1, 1⟩

/-- The process-wide isometric projection state: tile size and camera
offset.  In the C++ source these are the static members of class
`Isometric`; here they are an explicit state record passed to each call. -/
structure Isometric where
  tile_width_ : ℚ
  tile_height_ : ℚ
  camera_x_ : ℚ
  camera_y_ : ℚ
deriving DecidableEq

/-- `Isometric::tile_to_screen` (isometric.cpp:25-37):
`screen_x = (tile_x - tile_y) * (tile_width * 0.5)` and
`screen_y = (tile_x + tile_y) * (tile_height * 0.5)`, then the camera
offset is subtracted. -/
def Isometric.tile_to_screen (iso : Isometric) (tile_x tile_y : ℚ) : Vec2 :=
  let screen_x := (tile_x - tile_y) * (iso.tile_width_ * (1 / 2))
  let screen_y := (tile_x + tile_y) * (iso.tile_height_ * (1 / 2))
  ⟨screen_x - iso.camera_x_, screen_y - iso.camera_y_⟩

/-- `Isometric::screen_to_tile` (isometric.cpp:43-58): the camera offset is
added back first, then the algebraic inverse of the projection is applied. -/
def Isometric.screen_to_tile (iso : Isometric) (screen_x screen_y : ℚ) : Vec2 :=
  let sx := screen_x + iso.camera_x_
  let sy := screen_y + iso.camera_y_
  let half_width := iso.tile_width_ * (1 / 2)
  let half_height := iso.tile_height_ * (1 / 2)
  ⟨(sx / half_width + sy / half_height) * (1 / 2),
   (sy / half_height - sx / half_width) * (1 / 2)⟩

/-- `Isometric::tile_depth` (isometric.cpp:66-70): `tile_x + tile_y`. -/
def Isometric.tile_depth (tile_x tile_y : Int) : Int :=
  tile_x + tile_y

/-- A tile record (isometric.h:77-83). -/
structure Tile where
  tile_id : Int
  height : Int
  flags : Nat
deriving DecidableEq

/-- `Tile::is_empty`: `tile_id == 0`. -/
def Tile.is_empty (t : Tile) : Bool :=
  t.tile_id == 0

/-- The default-constructed empty tile (`TileMap::empty_tile_`). -/
def emptyTile : Tile := ⟨0, 0, 0⟩

/-- The tile map: a `width × height` row-major grid of tiles
(isometric.h:89-131).  The tileset pointer is irrelevant to the verified
traversal and is omitted. -/
structure TileMap where
  width_ : Int
  height_ : Int
  tiles_ : List Tile
deriving DecidableEq

/-- `TileMap::in_bounds` (isometric.cpp:115-117). -/
def TileMap.in_bounds (m : TileMap) (x y : Int) : Bool :=
  decide (0 ≤ x) && decide (x < m.width_) && decide (0 ≤ y) && decide (y < m.height_)

/-- `TileMap::at` (isometric.cpp:108-113): row-major lookup, the empty tile
for out-of-bounds coordinates.  (`at` is a reserved word in Lean, hence the
name `tile_at`.) -/
def TileMap.tile_at (m : TileMap) (x y : Int) : Tile :=
  if m.in_bounds x y then m.tiles_.getD (y * m.width_ + x).toNat emptyTile
  else emptyTile

/-- An entry of the `visible_tiles` vector collected inside
`TileMap::for_each_visible` (isometric.cpp:156-160). -/
structure TileEntry where
  x : Int
  y : Int
  depth : Int
  screen_x : ℚ
  screen_y : ℚ
deriving DecidableEq

/-- The comparator used to sort collected tiles (isometric.cpp:193-196),
relaxed from the strict `a.depth < b.depth` to its induced ordering: the
output of `std::sort` is exactly a permutation that is non-decreasing in
`depth`. -/
def depthLE (a b : TileEntry) : Prop :=
  a.depth ≤ b.depth

instance : DecidableRel depthLE :=
  fun a b => inferInstanceAs (Decidable (a.depth ≤ b.depth))

instance : IsTotal TileEntry depthLE :=
  ⟨fun a b => Int.le_total a.depth b.depth⟩

instance : IsTrans TileEntry depthLE :=
  ⟨fun _ _ _ h1 h2 => le_trans h1 h2⟩

/-- The list of integers `lo, lo+1, ..., hi` (the C++ `for` loop range). -/
def intRange (lo hi : Int) : List Int :=
  (List.range (hi + 1 - lo).toNat).map (fun i => lo + (i : Int))

/-- One iteration of the collection loop of `TileMap::for_each_visible`
(isometric.cpp:167-190): skip empty tiles, compute the screen position,
keep the tile when it lies within the pixel margins around the viewport. -/
def TileMap.visible_entry (m : TileMap) (iso : Isometric) (vp : Rect)
    (tx ty : Int) : Option TileEntry :=
  let tile := m.tile_at tx ty
  if tile.is_empty then none
  else
    let screen := iso.tile_to_screen (tx : ℚ) (ty : ℚ)
    let margin_x := iso.tile_width_
    let margin_y := iso.tile_height_ * 2
    if -margin_x ≤ screen.x ∧ screen.x ≤ vp.width + margin_x ∧
        -margin_y ≤ screen.y ∧ screen.y ≤ vp.height + margin_y then
      some ⟨tx, ty, Isometric.tile_depth tx ty + tile.height * 1000,
            screen.x, screen.y⟩
    else none

/-- A tile as delivered to the callback of `for_each_visible`
(isometric.cpp:199-202): coordinates, the tile re-fetched from the map,
and its screen position. -/
structure DeliveredTile where
  x : Int
  y : Int
  tile : Tile
  screen_x : ℚ
  screen_y : ℚ
deriving DecidableEq

/-- The collection phase of `TileMap::for_each_visible`
(isometric.cpp:131-190): project the four viewport corners to tile space,
take their bounding box with a 2-tile margin, clamp to the map (returning
nothing when the clamped bounds are empty), and gather the non-empty
in-margin tiles in row-major loop order. -/
def TileMap.collectVisible (m : TileMap) (iso : Isometric) (vp : Rect) :
    List TileEntry :=
  let top_left := iso.screen_to_tile vp.x vp.y
  let top_right := iso.screen_to_tile (vp.x + vp.width) vp.y
  let bottom_left := iso.screen_to_tile vp.x (vp.y + vp.height)
  let bottom_right := iso.screen_to_tile (vp.x + vp.width) (vp.y + vp.height)
  let min_x := ⌊min (min top_left.x bottom_left.x) (min top_right.x bottom_right.x)⌋ - 2
  let max_x := ⌈max (max top_left.x bottom_left.x) (max top_right.x bottom_right.x)⌉ + 2
  let min_y := ⌊min (min top_left.y bottom_left.y) (min top_right.y bottom_right.y)⌋ - 2
  let max_y := ⌈max (max top_left.y bottom_left.y) (max top_right.y bottom_right.y)⌉ + 2
  let min_x := max 0 min_x
  let max_x := min (m.width_ - 1) max_x
  let min_y := max 0 min_y
  let max_y := min (m.height_ - 1) max_y
  if min_x > max_x ∨ min_y > max_y then []
  else
    (intRange min_y max_y).flatMap (fun ty =>
      (intRange min_x max_x).filterMap (fun tx => m.visible_entry iso vp tx ty))

/-- `TileMap::for_each_visible` (isometric.cpp:127-203): sort the
collected tiles by depth (isometric.cpp:193-196) and deliver each to the
callback with the tile re-fetched from the map (isometric.cpp:199-202). -/
def TileMap.for_each_visible (m : TileMap) (iso : Isometric) (vp : Rect) :
    List DeliveredTile :=
  (List.insertionSort depthLE (m.collectVisible iso vp)).map
    (fun e => ⟨e.x, e.y, m.tile_at e.x e.y, e.screen_x, e.screen_y⟩)

/-- The depth sort key of a delivered tile, as stated by the spec:
`tile_depth(x, y) + height × 1000`. -/
def deliveredKey (d : DeliveredTile) : Int :=
  Isometric.tile_depth d.x d.y + d.tile.height * 1000

/-- First-match association-list lookup, modelling `std::unordered_map`
find (the list order stands for the container's iteration order). -/
def assocLookup {κ α : Type} [DecidableEq κ] : List (κ × α) → κ → Option α
  | [], _ => none
  | (k, v) :: rest, key => if k = key then some v else assocLookup rest key

/-- Truncation of a rational toward zero, modelling C++
`static_cast<int>` applied to a floating-point value. -/
def ratTrunc (q : ℚ) : Int :=
  if q < 0 then ⌈q⌉ else ⌊q⌋

/-- `std::fmod(x, y) = x - trunc(x / y) * y` over rationals. -/
def fmodQ (x y : ℚ) : ℚ :=
  x - (ratTrunc (x / y) : ℚ) * y

/-- A timed animation over sprite-sheet frames (sprite_sheet.h:26-34).
`name` is the lookup key of the owning map and is dropped here. -/
structure Animation where
  frame_indices : List Int
  frame_duration : ℚ
  looping : Bool
deriving DecidableEq

/-- `Animation::frame_count`: the number of frame indices. -/
def Animation.frame_count (a : Animation) : Int :=
  (a.frame_indices.length : Int)

/-- `Animation::total_duration`: `frame_count() * frame_duration`. -/
def Animation.total_duration (a : Animation) : ℚ :=
  (a.frame_count : ℚ) * a.frame_duration

/-- The sprite sheet, reduced to its named-animation map
(sprite_sheet.h:40-130); frames and the texture handle play no part in the
verified animation logic. -/
structure SpriteSheet where
  animations_ : List (String × Animation)
deriving DecidableEq

/-- `SpriteSheet::animation` (sprite_sheet.cpp:156-162). -/
def SpriteSheet.animation (sh : SpriteSheet) (name : String) : Option Animation :=
  assocLookup sh.animations_ name

/-- `SpriteSheet::animation_frame_index` (sprite_sheet.cpp:164-189):
clamp the playback time (wrapping for looping animations, clamping to
`total_duration - 0.0001` otherwise), divide by the frame duration, clamp
the frame number into range and return the indexed frame. -/
def SpriteSheet.animation_frame_index (sh : SpriteSheet) (anim_name : String)
    (time : ℚ) : Int :=
  match sh.animation anim_name with
  | none => 0
  | some anim =>
    if anim.frame_indices.isEmpty then 0
    else
      let total_duration := anim.total_duration
      if total_duration ≤ 0 then anim.frame_indices.headD 0
      else
        let t := if anim.looping then
            let t0 := fmodQ time total_duration
            if t0 < 0 then t0 + total_duration else t0
          else max (min time (total_duration - 1 / 10000)) 0
        let frame_num := ratTrunc (t / anim.frame_duration)
        let frame_num := min frame_num (anim.frame_count - 1)
        let frame_num := max frame_num 0
        anim.frame_indices.getD frame_num.toNat 0

/-- The `Animator` component's playback state (entity.h:80-101).  The
non-owning sheet pointer is modelled as an optional sheet value. -/
structure Animator where
  sheet_ : Option SpriteSheet
  current_anim_ : String
  elapsed_ : ℚ
  playing_ : Bool
  speed : ℚ
deriving DecidableEq

/-- `Animator::play` (entity.cpp:10-17): a no-op when the same animation is
already playing and `force` is unset; otherwise restart from zero. -/
def Animator.play (a : Animator) (animation : String) (force : Bool) : Animator :=
  if !force && a.playing_ && (a.current_anim_ == animation) then a
  else { a with current_anim_ := animation, elapsed_ := 0, playing_ := true }

/-- `Animator::update` (entity.cpp:19-31): advance the clock by
`dt * speed`; a non-looping animation that reaches its total duration
clears the playing flag. -/
def Animator.update (a : Animator) (dt : ℚ) : Animator :=
  if !a.playing_ then a
  else
    match a.sheet_ with
    | none => a
    | some sh =>
      let elapsed2 := a.elapsed_ + dt * a.speed
      match sh.animation a.current_anim_ with
      | some anim =>
        if anim.looping = false ∧ anim.total_duration ≤ elapsed2 then
          { a with elapsed_ := elapsed2, playing_ := false }
        else { a with elapsed_ := elapsed2 }
      | none => { a with elapsed_ := elapsed2 }

/-- `Animator::stop` (entity.cpp:33-37). -/
def Animator.stop (a : Animator) : Animator :=
  { a with playing_ := false, current_anim_ := "", elapsed_ := 0 }

/-- `Animator::is_finished` (entity.cpp:39-47): true without a sheet or a
known animation, false for looping animations, otherwise
`elapsed >= total_duration`. -/
def Animator.is_finished (a : Animator) : Bool :=
  match a.sheet_ with
  | none => true
  | some sh =>
    match sh.animation a.current_anim_ with
    | none => true
    | some anim =>
      if anim.looping then false
      else decide (anim.total_duration ≤ a.elapsed_)

/-- The component kinds of the engine (`std::type_index` keys of
`Entity::component_map_`, entity.h:58-119). -/
inductive ComponentKind
  | transform
  | spriteRenderer
  | animator
  | boxCollider
  | tag
deriving DecidableEq

/-- The `Transform` component's data (entity.h:58-66). -/
structure TransformData where
  position : Vec2
  scale : Vec2
  rotation : ℚ
deriving DecidableEq

def defaultTransform : TransformData :=
  ⟨⟨0, 0⟩, ⟨1, 1⟩, 0⟩

/-- The `SpriteRenderer` component's data (entity.h:69-77). -/
structure SpriteData where
  region : TextureRegion
  tint : Color
  size : Vec2
  origin : Vec2
  layer : Int
  flip_x : Bool
  flip_y : Bool
deriving DecidableEq

def defaultRegion : TextureRegion := ⟨0, 0, 1, 1⟩

def defaultSprite : SpriteData :=
  ⟨defaultRegion, Color.white, ⟨32, 32⟩, ⟨1 / 2, 1 / 2⟩, 0, false, false⟩

/-- The `BoxCollider` component's data (entity.h:104-111). -/
structure BoxColliderData where
  offset : Vec2
  size : Vec2
  is_trigger : Bool
deriving DecidableEq

/-- Kind-tagged component payload: the concrete subclasses of `Component`
(entity.h:58-119) as a closed variant. -/
inductive ComponentData
  | transformC (t : TransformData)
  | spriteC (s : SpriteData)
  | animatorC (a : Animator)
  | boxColliderC (b : BoxColliderData)
  | tagC (value : String)
deriving DecidableEq

/-- The kind (the `typeid` key) of a component payload. -/
def ComponentData.kind : ComponentData → ComponentKind
  | .transformC _ => .transform
  | .spriteC _ => .spriteRenderer
  | .animatorC _ => .animator
  | .boxColliderC _ => .boxCollider
  | .tagC _ => .tag

/-- A stored component: the `Component` base state (enabled flag, owner
back-reference, entity.h:29-51) plus the kind-tagged payload. -/
structure Component where
  enabled_ : Bool
  owner_ : Option Nat
  data : ComponentData
deriving DecidableEq

/-- An entity (entity.h:125-179): identity, name, active flag, the owned
component vector `components_` and the kind-keyed lookup
`component_map_`, whose entries index into `components_` (modelling the
stored pointers). -/
structure Entity where
  id_ : Nat
  name_ : String
  active_ : Bool
  components_ : List Component
  component_map_ : List (ComponentKind × Nat)
deriving DecidableEq

/-- `Entity::add_component<T>` (entity.h:185-205): if the kind is already
present return the existing instance, otherwise construct the component,
record it in the map and the vector, and fire `on_attach` (which binds the
owner back-reference).  The returned index into `components_` models the
returned pointer. -/
def Entity.add_component (e : Entity) (c : ComponentData) : Entity × Nat :=
  match assocLookup e.component_map_ c.kind with
  | some i => (e, i)
  | none =>
    let i := e.components_.length
    let comp : Component := ⟨true, some e.id_, c⟩
    ({ e with
        components_ := e.components_ ++ [comp],
        component_map_ := e.component_map_ ++ [(c.kind, i)] }, i)

/-- `Entity::get_component<T>` (entity.h:207-227): map lookup; `none`
models the null pointer. -/
def Entity.get_component (e : Entity) (k : ComponentKind) : Option Component :=
  (assocLookup e.component_map_ k).bind (fun i => e.components_[i]?)

/-- The number of stored components of a given kind. -/
def Entity.componentCount (e : Entity) (k : ComponentKind) : Nat :=
  (e.components_.filter (fun c => c.data.kind == k)).length

/-- The per-kind consistency invariant every registry-created entity
maintains (spec §3: at most one component instance per kind per entity;
the map entry points at a stored component of that kind): stated for one
kind, as the double-add theorem needs it. -/
def Entity.kindConsistent (e : Entity) (k : ComponentKind) : Bool :=
  match assocLookup e.component_map_ k with
  | none => e.componentCount k == 0
  | some i =>
    (match e.components_[i]? with
     | some c => c.data.kind == k
     | none => false) && (e.componentCount k == 1)

/-- The `Entity` constructor (entity.cpp:76-80): every entity implicitly
carries a default `Transform`. -/
def Entity.new (id : Nat) : Entity :=
  (({ id_ := id, name_ := "", active_ := true,
      components_ := [], component_map_ := [] } : Entity).add_component
    (.transformC defaultTransform)).1

/-- The transform payload of an entity, if present
(`Entity::transform()`, entity.h:162-163). -/
def Entity.transformData (e : Entity) : Option TransformData :=
  match e.get_component .transform with
  | some c =>
    match c.data with
    | .transformC t => some t
    | _ => none
  | none => none

/-- The transform component of an entity together with its enabled flag. -/
def Entity.transformComp (e : Entity) : Option (Bool × TransformData) :=
  match e.get_component .transform with
  | some c =>
    match c.data with
    | .transformC t => some (c.enabled_, t)
    | _ => none
  | none => none

/-- The sprite-renderer payload of an entity together with its enabled
flag (`entity->get_component<SpriteRenderer>()` plus `is_enabled()`). -/
def Entity.spriteComp (e : Entity) : Option (Bool × SpriteData) :=
  match e.get_component .spriteRenderer with
  | some c =>
    match c.data with
    | .spriteC s => some (c.enabled_, s)
    | _ => none
  | none => none

/-- The entity registry (entity.h:260-305): a monotonic id counter, the
owning id-keyed entity map (list order = iteration order) and the
pending-destroy queue. -/
structure EntityManager where
  next_id_ : Nat
  entities_ : List (Nat × Entity)
  pending_destroy_ : List Nat
deriving DecidableEq

/-- `EntityManager::create_entity` (entity.cpp:128-136). -/
def EntityManager.create_entity (m : EntityManager) (name : String) :
    EntityManager × Nat :=
  let id := m.next_id_
  let e := Entity.new id
  let e := { e with name_ := if name = "" then "Entity_" ++ toString id else name }
  ({ m with next_id_ := id + 1, entities_ := m.entities_ ++ [(id, e)] }, id)

/-- `EntityManager::destroy_entity` (entity.cpp:138-141): only queue the
id for deferred destruction. -/
def EntityManager.destroy_entity (m : EntityManager) (id : Nat) : EntityManager :=
  { m with pending_destroy_ := m.pending_destroy_ ++ [id] }

/-- `EntityManager::get_entity` (entity.cpp:149-155). -/
def EntityManager.get_entity (m : EntityManager) (id : Nat) : Option Entity :=
  assocLookup m.entities_ id

/-- `EntityManager::find_entity` (entity.cpp:157-164): first entity, in
iteration order, with the given name. -/
def EntityManager.find_entity (m : EntityManager) (name : String) : Option Entity :=
  (m.entities_.find? (fun p => p.2.name_ == name)).map (fun p => p.2)

/-- `EntityManager::find_entities_with<T>` (entity.h:311-320): all
entities whose component map holds the kind. -/
def EntityManager.find_entities_with (m : EntityManager) (k : ComponentKind) :
    List Entity :=
  (m.entities_.filter (fun p => (assocLookup p.2.component_map_ k).isSome)).map
    (fun p => p.2)

/-- `entities_.erase(id)` on the id-keyed map. -/
def eraseId (l : List (Nat × Entity)) (id : Nat) : List (Nat × Entity) :=
  l.filter (fun p => !(p.1 == id))

/-- `EntityManager::process_pending_destroys` (entity.cpp:190-195): erase
every queued id, then clear the queue. -/
def EntityManager.process_pending_destroys (m : EntityManager) : EntityManager :=
  { m with
    entities_ := m.pending_destroy_.foldl eraseId m.entities_,
    pending_destroy_ := [] }

/-- `EntityManager::for_each` (entity.cpp:177-183) with a state-mutating
callback `f`: the loop walks the keys captured when iteration began (the
`unordered_map` iterators, which remain valid because the callback never
touches `entities_`), looks each entity up in the current state, and calls
the callback on the active ones.  Returns the final state and the ids
visited. -/
def forEachGo (f : Nat → EntityManager → EntityManager) :
    List Nat → EntityManager → EntityManager × List Nat
  | [], m => (m, [])
  | id :: rest, m =>
    match assocLookup m.entities_ id with
    | none => forEachGo f rest m
    | some e =>
      if e.active_ then
        let m2 := f id m
        let r := forEachGo f rest m2
        (r.1, id :: r.2)
      else forEachGo f rest m

/-- Run `EntityManager::for_each` from the start: the key sequence is the
iteration order of `entities_`. -/
def EntityManager.for_each_run (m : EntityManager)
    (f : Nat → EntityManager → EntityManager) : EntityManager × List Nat :=
  forEachGo f (m.entities_.map (fun p => p.1)) m

/-- An entry of the sprite list collected by `Scene::render_sprites`
(scene.cpp:48-52). -/
structure SpriteEntry where
  t : TransformData
  s : SpriteData
  layer : Int
deriving DecidableEq

/-- The comparator of the layer sort (scene.cpp:72-75), relaxed from the
strict `a.layer < b.layer` to its induced ordering, as for tiles. -/
def layerLE (a b : SpriteEntry) : Prop :=
  a.layer ≤ b.layer

instance : DecidableRel layerLE :=
  fun a b => inferInstanceAs (Decidable (a.layer ≤ b.layer))

instance : IsTotal SpriteEntry layerLE :=
  ⟨fun a b => Int.le_total a.layer b.layer⟩

instance : IsTrans SpriteEntry layerLE :=
  ⟨fun _ _ _ h1 h2 => le_trans h1 h2⟩

/-- A draw-call record (`struct Sprite`, renderer.h:111-118). -/
structure Sprite where
  position : Vec2
  size : Vec2
  region : TextureRegion
  tint : Color
  rotation : ℚ
  origin : Vec2
deriving DecidableEq

/-- The calls `Scene::render_sprites` makes on its renderer collaborator. -/
inductive RenderEvent
  | begin_batch
  | draw (s : Sprite)
  | end_batch
deriving DecidableEq

/-- The sprite-collection pass of `Scene::render_sprites`
(scene.cpp:55-69): over active entities in registry iteration order, keep
the (transform, sprite) pair when the transform is present and the sprite
is present and enabled.  (The code does not consult the transform's
enabled flag.) -/
def gatherSprites (es : List (Nat × Entity)) : List SpriteEntry :=
  es.filterMap (fun p =>
    if p.2.active_ then
      match p.2.transformData, p.2.spriteComp with
      | some t, some (en, s) => if en then some ⟨t, s, s.layer⟩ else none
      | _, _ => none
    else none)

/-- The collection pass as the spec states it ("gathers (Transform,
SpriteRenderer) pairs from active entities with both components enabled"):
kept only when the transform's enabled flag is also set.  Written from the
spec's words, for comparison against `gatherSprites`. -/
def specGatherSprites (es : List (Nat × Entity)) : List SpriteEntry :=
  es.filterMap (fun p =>
    if p.2.active_ then
      match p.2.transformComp, p.2.spriteComp with
      | some (ten, t), some (en, s) =>
        if ten && en then some ⟨t, s, s.layer⟩ else none
      | _, _ => none
    else none)

/-- Building the submitted draw call from an entry (scene.cpp:80-101):
copy the fields, swap the UV bounds per flip flag, multiply the size by
the transform scale. -/
def mkSprite (e : SpriteEntry) : Sprite :=
  let region := e.s.region
  let region := if e.s.flip_x then
      { region with u0 := region.u1, u1 := region.u0 } else region
  let region := if e.s.flip_y then
      { region with v0 := region.v1, v1 := region.v0 } else region
  ⟨e.t.position,
   ⟨e.s.size.x * e.t.scale.x, e.s.size.y * e.t.scale.y⟩,
   region, e.s.tint, e.t.rotation, e.s.origin⟩

/-- The sorted sprite list submitted by `Scene::render_sprites`
(scene.cpp:72-75). -/
def sortedSprites (es : List (Nat × Entity)) : List SpriteEntry :=
  List.insertionSort layerLE (gatherSprites es)

/-- `Scene::render_sprites` (scene.cpp:44-105) as the sequence of renderer
calls it performs: one `begin_batch`, the sorted draw calls, one
`end_batch`. -/
def renderSprites (es : List (Nat × Entity)) : List RenderEvent :=
  [RenderEvent.begin_batch]
    ++ (sortedSprites es).map (fun e => RenderEvent.draw (mkSprite e))
    ++ [RenderEvent.end_batch]

/-- A scene as the scene manager sees it (scene.h:22-74): its identity and
active flag.  (Scene contents are irrelevant to stack transitions; `sid`
models the object's identity.) -/
structure SceneS where
  sid : Nat
  is_active_ : Bool
deriving DecidableEq

/-- The lifecycle callbacks and the transition callback fired by the scene
manager, as an observable event trace. -/
inductive SceneEvent
  | enter (id : Nat)
  | exited (id : Nat)
  | pause (id : Nat)
  | resume (id : Nat)
  | transition (fromId : Option Nat) (toId : Option Nat)
deriving DecidableEq

/-- The single pending-operation slot (scene.h:158). -/
inductive PendingOp
  | noneOp
  | pushOp
  | popOp
  | replaceOp
  | clearOp
deriving DecidableEq

/-- The scene manager (scene.h:80-161): the scene stack (modelled head =
top of stack, i.e. the back of the C++ vector), the pending slot, and
whether a transition callback is installed. -/
structure SceneManager where
  scenes_ : List SceneS
  pending_op_ : PendingOp
  pending_scene_ : Option SceneS
  has_transition_callback : Bool
deriving DecidableEq

/-- `SceneManager::push_scene<T>` (scene.h:167-176): construct the scene
into the pending slot and record a push; the stack is untouched. -/
def SceneManager.push_scene (m : SceneManager) (sid : Nat) : SceneManager :=
  { m with pending_scene_ := some ⟨sid, false⟩, pending_op_ := .pushOp }

/-- `SceneManager::replace_scene<T>` (scene.h:178-187). -/
def SceneManager.replace_scene (m : SceneManager) (sid : Nat) : SceneManager :=
  { m with pending_scene_ := some ⟨sid, false⟩, pending_op_ := .replaceOp }

/-- `SceneManager::pop_scene` (scene.cpp:186-188): records the op only. -/
def SceneManager.pop_scene (m : SceneManager) : SceneManager :=
  { m with pending_op_ := .popOp }

/-- `SceneManager::clear_scenes` (scene.cpp:190-192): records the op only. -/
def SceneManager.clear_scenes (m : SceneManager) : SceneManager :=
  { m with pending_op_ := .clearOp }

/-- `SceneManager::push_scene_internal` (scene.cpp:131-155): deactivate
and pause the old top, activate and push the new scene, fire the
transition callback (if installed), then `on_enter` on the new scene —
in that order. -/
def SceneManager.push_scene_internal (m : SceneManager) (sc : SceneS) :
    SceneManager × List SceneEvent :=
  let oldTop := m.scenes_.head?
  let scenes1 := match m.scenes_ with
    | [] => []
    | t :: rest => { t with is_active_ := false } :: rest
  let evs1 := match oldTop with
    | some t => [SceneEvent.pause t.sid]
    | none => []
  let scenes2 := { sc with is_active_ := true } :: scenes1
  let evs2 := if m.has_transition_callback then
      [SceneEvent.transition (oldTop.map SceneS.sid) (some sc.sid)] else []
  ({ m with scenes_ := scenes2 }, evs1 ++ evs2 ++ [SceneEvent.enter sc.sid])

/-- `SceneManager::replace_scene_internal` (scene.cpp:157-184):
deactivate, exit and remove the old top, activate and push the new scene,
fire the transition callback, then `on_enter`. -/
def SceneManager.replace_scene_internal (m : SceneManager) (sc : SceneS) :
    SceneManager × List SceneEvent :=
  let oldTop := m.scenes_.head?
  let scenes1 := match m.scenes_ with
    | [] => []
    | _ :: rest => rest
  let evs1 := match oldTop with
    | some t => [SceneEvent.exited t.sid]
    | none => []
  let scenes2 := { sc with is_active_ := true } :: scenes1
  let evs2 := if m.has_transition_callback then
      [SceneEvent.transition (oldTop.map SceneS.sid) (some sc.sid)] else []
  ({ m with scenes_ := scenes2 }, evs1 ++ evs2 ++ [SceneEvent.enter sc.sid])

/-- `SceneManager::process_pending` (scene.cpp:211-263): apply the pending
operation to the stack, firing the lifecycle and transition callbacks,
then clear the pending slot.  Returns the new state and the event trace. -/
def SceneManager.process_pending (m : SceneManager) :
    SceneManager × List SceneEvent :=
  let r : SceneManager × List SceneEvent :=
    match m.pending_op_ with
    | .pushOp =>
      match m.pending_scene_ with
      | some sc => m.push_scene_internal sc
      | none => (m, [])
    | .popOp =>
      match m.scenes_ with
      | [] => (m, [])
      | old :: rest =>
        match rest with
        | [] => ({ m with scenes_ := [] }, [SceneEvent.exited old.sid])
        | newTop :: rest2 =>
          let evs3 := if m.has_transition_callback then
              [SceneEvent.transition (some old.sid) (some newTop.sid)] else []
          ({ m with scenes_ := { newTop with is_active_ := true } :: rest2 },
           [SceneEvent.exited old.sid] ++ [SceneEvent.resume newTop.sid] ++ evs3)
    | .replaceOp =>
      match m.pending_scene_ with
      | some sc => m.replace_scene_internal sc
      | none => (m, [])
    | .clearOp =>
      ({ m with scenes_ := [] }, m.scenes_.map (fun s => SceneEvent.exited s.sid))
    | .noneOp => (m, [])
  ({ r.1 with pending_op_ := .noneOp, pending_scene_ := none }, r.2)

/-- A scene-stack request, for stating last-write-wins over all four
request kinds. -/
inductive SceneRequest
  | pushR (sid : Nat)
  | popR
  | replaceR (sid : Nat)
  | clearR
deriving DecidableEq

/-- Apply a request to the manager. -/
def SceneRequest.apply (r : SceneRequest) (m : SceneManager) : SceneManager :=
  match r with
  | .pushR sid => m.push_scene sid
  | .popR => m.pop_scene
  | .replaceR sid => m.replace_scene sid
  | .clearR => m.clear_scenes

/-- The pending op a request records. -/
def SceneRequest.op : SceneRequest → PendingOp
  | .pushR _ => .pushOp
  | .popR => .popOp
  | .replaceR _ => .replaceOp
  | .clearR => .clearOp

/-- Whether the registry currently holds an active entity under `id`. -/
def activeInMgr (m : EntityManager) (id : Nat) : Bool :=
  match assocLookup m.entities_ id with
  | some e => e.active_
  | none => false

/-- A fresh scene manager with a transition callback installed. -/
def smInit : SceneManager := ⟨[], .noneOp, none, true⟩

/-- Scenario step 1: request `push(A)` and flush. -/
def smStep1 (a : Nat) : SceneManager × List SceneEvent :=
  (smInit.push_scene a).process_pending

/-- Scenario step 2: request `push(B)` and flush. -/
def smStep2 (a b : Nat) : SceneManager × List SceneEvent :=
  ((smStep1 a).1.push_scene b).process_pending

/-- Scenario step 3: request `pop()` and flush. -/
def smStep3 (a b : Nat) : SceneManager × List SceneEvent :=
  ((smStep2 a b).1.pop_scene).process_pending

/-- An entity whose `Transform` is disabled but whose `SpriteRenderer` is
enabled, both attached and the entity active. -/
def ceTransformOff : Entity :=
  { id_ := 1, name_ := "E", active_ := true,
    components_ :=
      [⟨false, some 1, .transformC defaultTransform⟩,
       ⟨true, some 1, .spriteC defaultSprite⟩],
    component_map_ := [(.transform, 0), (.spriteRenderer, 1)] }

/-- A three-frame non-looping animation at 0.1 s per frame. -/
def anim0 : Animation := ⟨[5, 6, 7], 1 / 10, false⟩

/-- A sheet holding `anim0` under the name `walk`. -/
def sheet0 : SpriteSheet := ⟨[("walk", anim0)]⟩

/-- An animator bound to `sheet0` that has finished playing `walk`. -/
def animator0 : Animator := ⟨some sheet0, "walk", 1 / 2, false, 1⟩

/-- A sheet whose non-looping animation `blink` has a frame duration below
the code's 0.0001 sampling clamp. -/
def sheetCe : SpriteSheet := ⟨[("blink", ⟨[5, 6], 1 / 20000, false⟩)]⟩

/-- A registry with one active and one inactive entity. -/
def mgr0 : EntityManager :=
  ⟨3, [(1, Entity.new 1), (2, { Entity.new 2 with active_ := false })], []⟩

/-- C1.  `screen_to_tile` inverts `tile_to_screen` for every tile
coordinate pair and camera offset: the projection is the stated affine map
and its inverse un-offsets the camera first, so the round trip is the
identity (exactly, over `ℚ`; the C++ floats realise it up to rounding),
whenever the tile dimensions are nonzero. -/
theorem screen_to_tile_round_trip (iso : Isometric) (tx ty : ℚ)
    (hw : iso.tile_width_ ≠ 0) (hh : iso.tile_height_ ≠ 0) :
    iso.screen_to_tile (iso.tile_to_screen tx ty).x (iso.tile_to_screen tx ty).y
      = ⟨tx, ty⟩ := by
  simp only [Isometric.tile_to_screen, Isometric.screen_to_tile, Vec2.mk.injEq]
  constructor <;> · field_simp; ring

/-- Witness for C1 at tile size 64×32, camera (10, 20), tile (3, 5). -/
theorem screen_to_tile_round_trip_witness :
    (⟨64, 32, 10, 20⟩ : Isometric).tile_width_ ≠ 0 ∧
    (⟨64, 32, 10, 20⟩ : Isometric).screen_to_tile
        ((⟨64, 32, 10, 20⟩ : Isometric).tile_to_screen 3 5).x
        ((⟨64, 32, 10, 20⟩ : Isometric).tile_to_screen 3 5).y = ⟨3, 5⟩ :=
  ⟨by norm_num,
   screen_to_tile_round_trip ⟨64, 32, 10, 20⟩ 3 5 (by norm_num) (by norm_num)⟩

/-- C2 (amended).  The scene-stack scenario push(A), flush, push(B),
flush, pop(), flush: pushing A fires the transition callback with
(null, A) and `on_enter(A)`, leaving A active; pushing B fires
`on_pause(A)`, then the transition callback with (A, B), then
`on_enter(B)` — for a push the transition callback runs after `on_pause`
and the stack update but before `on_enter` of the new scene — leaving B
active and A inactive; popping fires `on_exit(B)`, then `on_resume(A)`,
then the transition callback with (B, A), leaving exactly A, active, on
the stack. -/
theorem scene_stack_scenario (a b : Nat) :
    (smStep1 a).2 = [SceneEvent.transition none (some a), SceneEvent.enter a]
    ∧ (smStep1 a).1.scenes_ = [⟨a, true⟩]
    ∧ (smStep2 a b).2 = [SceneEvent.pause a,
        SceneEvent.transition (some a) (some b), SceneEvent.enter b]
    ∧ (smStep2 a b).1.scenes_ = [⟨b, true⟩, ⟨a, false⟩]
    ∧ (smStep3 a b).2 = [SceneEvent.exited b, SceneEvent.resume a,
        SceneEvent.transition (some b) (some a)]
    ∧ (smStep3 a b).1.scenes_ = [⟨a, true⟩] :=
  ⟨rfl, rfl, rfl, rfl, rfl, rfl⟩

/-- C2 counterexample: at A = 1, B = 2, flushing push(B) emits the
transition callback before `on_enter(B)` (scene.cpp:148-154), so the
claimed order — `on_enter` of the new scene before the transition
callback — is false. -/
theorem scene_push_transition_order_counterexample :
    (smStep2 1 2).2 = [SceneEvent.pause 1,
        SceneEvent.transition (some 1) (some 2), SceneEvent.enter 2]
    ∧ (smStep2 1 2).2 ≠ [SceneEvent.pause 1, SceneEvent.enter 2,
        SceneEvent.transition (some 1) (some 2)] := by
  constructor
  · rfl
  · decide

/-- C8.  The four stack operations only record a pending request and never
touch the stack; a later request overwrites an earlier one in the same
frame; `process_pending` is the only stack mutator and leaves the pending
slot empty. -/
theorem scene_requests_deferred (m : SceneManager) (sid : Nat)
    (r1 r2 : SceneRequest) :
    (m.push_scene sid).scenes_ = m.scenes_
    ∧ (m.pop_scene).scenes_ = m.scenes_
    ∧ (m.replace_scene sid).scenes_ = m.scenes_
    ∧ (m.clear_scenes).scenes_ = m.scenes_
    ∧ (m.push_scene sid).pending_op_ = .pushOp
    ∧ (m.push_scene sid).pending_scene_ = some ⟨sid, false⟩
    ∧ (m.pop_scene).pending_op_ = .popOp
    ∧ (m.replace_scene sid).pending_op_ = .replaceOp
    ∧ (m.replace_scene sid).pending_scene_ = some ⟨sid, false⟩
    ∧ (m.clear_scenes).pending_op_ = .clearOp
    ∧ (r2.apply (r1.apply m)).pending_op_ = r2.op
    ∧ (m.process_pending).1.pending_op_ = .noneOp
    ∧ (m.process_pending).1.pending_scene_ = none := by
  refine ⟨rfl, rfl, rfl, rfl, rfl, rfl, rfl, rfl, rfl, rfl, ?_, rfl, rfl⟩
  cases r2 <;> rfl

/-- C9.  `Animator::play(A, force)` is a no-op when the animator is
already playing animation A and `force` is unset; in every other case it
sets the current animation to the argument, resets the clock to 0 and sets
the playing flag. -/
theorem animator_play_spec (a : Animator) (nm : String) (force : Bool) :
    ((force = false ∧ a.playing_ = true ∧ a.current_anim_ = nm) →
        a.play nm force = a)
    ∧ ((force = true ∨ a.playing_ = false ∨ a.current_anim_ ≠ nm) →
        a.play nm force =
          { a with current_anim_ := nm, elapsed_ := 0, playing_ := true }) := by
  constructor
  · rintro ⟨hf, hp, hc⟩
    simp [Animator.play, hf, hp, hc]
  · intro h
    rcases h with hf | hp | hc
    · simp [Animator.play, hf]
    · simp [Animator.play, hp]
    · simp [Animator.play, hc]

/-- Witness for C9: both branches at concrete animators. -/
theorem animator_play_spec_witness :
    Animator.play ⟨none, "run", 2, true, 1⟩ "run" false = ⟨none, "run", 2, true, 1⟩
    ∧ Animator.play ⟨none, "run", 2, false, 1⟩ "run" false
        = ⟨none, "run", 0, true, 1⟩ :=
  ⟨(animator_play_spec ⟨none, "run", 2, true, 1⟩ "run" false).1 ⟨rfl, rfl, rfl⟩,
   (animator_play_spec ⟨none, "run", 2, false, 1⟩ "run" false).2 (Or.inr (Or.inl rfl))⟩

/-- C10.  `Animator::is_finished` returns true whenever no sheet is bound
or the current animation is missing from the sheet, regardless of elapsed
time, and false for every looping animation, regardless of elapsed time. -/
theorem animator_is_finished_degenerate (a : Animator) :
    (a.sheet_ = none → a.is_finished = true)
    ∧ (∀ sh, a.sheet_ = some sh → sh.animation a.current_anim_ = none →
        a.is_finished = true)
    ∧ (∀ sh anim, a.sheet_ = some sh → sh.animation a.current_anim_ = some anim →
        anim.looping = true → a.is_finished = false) := by
  refine ⟨fun h => ?_, fun sh h1 h2 => ?_, fun sh anim h1 h2 h3 => ?_⟩
  · simp [Animator.is_finished, h]
  · simp [Animator.is_finished, h1, h2]
  · simp [Animator.is_finished, h1, h2, h3]

/-- Witness for C10: an unbound animator reports finished. -/
theorem animator_is_finished_degenerate_witness :
    Animator.is_finished ⟨none, "walk", 7, true, 1⟩ = true :=
  (animator_is_finished_degenerate ⟨none, "walk", 7, true, 1⟩).1 rfl

/-- Appending a binding for an absent key makes it the lookup result. -/
theorem assocLookup_append_self {κ α : Type} [DecidableEq κ]
    (l : List (κ × α)) (k : κ) (v : α) (h : assocLookup l k = none) :
    assocLookup (l ++ [(k, v)]) k = some v := by
  induction l with
  | nil => simp [assocLookup]
  | cons p rest ih =>
    rw [assocLookup] at h
    by_cases hk : p.1 = k
    · simp [hk] at h
    · rw [List.cons_append, assocLookup]
      simp only [hk, if_false] at h ⊢
      exact ih h

/-- C5.  For every entity satisfying the per-kind consistency invariant,
adding a component of kind K twice returns the same instance both times
(the second call returns the first call's instance unchanged), is total
(never errors), and leaves the entity with exactly one component of kind
K. -/
theorem add_component_idempotent (e : Entity) (c1 c2 : ComponentData)
    (hk : c2.kind = c1.kind) (hcons : e.kindConsistent c1.kind = true) :
    ((e.add_component c1).1.add_component c2).2 = (e.add_component c1).2
    ∧ ((e.add_component c1).1.add_component c2).1 = (e.add_component c1).1
    ∧ (e.add_component c1).1.componentCount c1.kind = 1
    ∧ ((e.add_component c1).1.add_component c2).1.componentCount c1.kind = 1 := by
  unfold Entity.kindConsistent at hcons
  cases hlook : assocLookup e.component_map_ c1.kind with
  | some i =>
    rw [hlook] at hcons
    have hcount : e.componentCount c1.kind = 1 := by
      simp only [Bool.and_eq_true, beq_iff_eq] at hcons
      exact hcons.2
    have h1 : e.add_component c1 = (e, i) := by
      unfold Entity.add_component
      rw [hlook]
    have h2 : e.add_component c2 = (e, i) := by
      unfold Entity.add_component
      rw [hk, hlook]
    simp [h1, h2, hcount]
  | none =>
    rw [hlook] at hcons
    have hcount : e.componentCount c1.kind = 0 := by
      simpa using hcons
    have hfilter : e.components_.filter (fun c => c.data.kind == c1.kind) = [] :=
      List.length_eq_zero.1 hcount
    have h1 : e.add_component c1 =
        ({ e with
            components_ := e.components_ ++ [⟨true, some e.id_, c1⟩],
            component_map_ := e.component_map_ ++ [(c1.kind, e.components_.length)] },
         e.components_.length) := by
      unfold Entity.add_component
      rw [hlook]
    have hlook2 : assocLookup (e.component_map_ ++ [(c1.kind, e.components_.length)])
        c2.kind = some e.components_.length := by
      rw [hk]
      exact assocLookup_append_self _ _ _ hlook
    have h2 : (e.add_component c1).1.add_component c2 = (e.add_component c1) := by
      rw [h1]
      unfold Entity.add_component
      simp only [hlook2]
    have hcount1 : (e.add_component c1).1.componentCount c1.kind = 1 := by
      rw [h1]
      unfold Entity.componentCount
      simp only [List.filter_append, hfilter]
      simp [ComponentData.kind]
    refine ⟨by rw [h2], by rw [h2], hcount1, by rw [h2]; exact hcount1⟩

/-- Witness for C5: a freshly created entity, adding a `SpriteRenderer`
twice. -/
theorem add_component_idempotent_witness :
    (Entity.new 1).kindConsistent ComponentKind.spriteRenderer = true
    ∧ (((Entity.new 1).add_component (.spriteC defaultSprite)).1.add_component
        (.spriteC defaultSprite)).2
        = ((Entity.new 1).add_component (.spriteC defaultSprite)).2
    ∧ (((Entity.new 1).add_component (.spriteC defaultSprite)).1.add_component
        (.spriteC defaultSprite)).1
        = ((Entity.new 1).add_component (.spriteC defaultSprite)).1
    ∧ ((Entity.new 1).add_component (.spriteC defaultSprite)).1.componentCount
        (ComponentData.spriteC defaultSprite).kind = 1 := by
  have h := add_component_idempotent (Entity.new 1) (.spriteC defaultSprite)
    (.spriteC defaultSprite) rfl (by decide)
  exact ⟨by decide, h.1, h.2.1, h.2.2.1⟩

/-- A key erased from the entity map no longer resolves. -/
theorem assocLookup_eraseId_self (l : List (Nat × Entity)) (k : Nat) :
    assocLookup (eraseId l k) k = none := by
  induction l with
  | nil => rfl
  | cons p rest ih =>
    by_cases hk : p.1 = k
    · simpa [eraseId, List.filter_cons, hk] using ih
    · have hbeq : (p.1 == k) = false := by simp [hk]
      simp only [eraseId, List.filter_cons, hbeq, Bool.not_false, if_true] at ih ⊢
      simp [assocLookup, hk, ih]

/-- Erasure preserves absence of any key. -/
theorem assocLookup_eraseId_none (l : List (Nat × Entity)) (k j : Nat)
    (h : assocLookup l j = none) :
    assocLookup (eraseId l k) j = none := by
  induction l with
  | nil => rfl
  | cons p rest ih =>
    rw [assocLookup] at h
    by_cases hj : p.1 = j
    · simp [hj] at h
    · rw [if_neg hj] at h
      by_cases hkp : p.1 = k
      · simp only [eraseId, List.filter_cons, hkp, beq_self_eq_true,
          Bool.not_true, Bool.false_eq_true, if_false]
        simpa [eraseId] using ih h
      · have hbeq : (p.1 == k) = false := by simp [hkp]
        simp only [eraseId, List.filter_cons, hbeq, Bool.not_false, if_true]
        simpa [assocLookup, hj, eraseId] using ih h

/-- Folding erasures preserves absence of a key. -/
theorem assocLookup_foldl_eraseId_none (ids : List Nat) :
    ∀ (l : List (Nat × Entity)) (j : Nat), assocLookup l j = none →
      assocLookup (ids.foldl eraseId l) j = none := by
  induction ids with
  | nil => intro l j h; exact h
  | cons i rest ih =>
    intro l j h
    rw [List.foldl_cons]
    exact ih _ _ (assocLookup_eraseId_none l i j h)

/-- Every key in the erased batch is gone after the fold. -/
theorem assocLookup_foldl_eraseId_mem (ids : List Nat) :
    ∀ (l : List (Nat × Entity)) (j : Nat), j ∈ ids →
      assocLookup (ids.foldl eraseId l) j = none := by
  induction ids with
  | nil => intro l j h; cases h
  | cons i rest ih =>
    intro l j h
    rw [List.foldl_cons]
    rcases List.mem_cons.1 h with h1 | h2
    · subst h1
      exact assocLookup_foldl_eraseId_none rest _ j (assocLookup_eraseId_self l j)
    · exact ih _ _ h2

/-- With unique keys, each stored pair resolves to itself. -/
theorem assocLookup_self_of_nodup :
    ∀ (l : List (Nat × Entity)), (l.map Prod.fst).Nodup →
      ∀ p ∈ l, assocLookup l p.1 = some p.2 := by
  intro l
  induction l with
  | nil => intro _ p hp; cases hp
  | cons q rest ih =>
    intro hnd p hp
    rw [List.map_cons, List.nodup_cons] at hnd
    rcases List.mem_cons.1 hp with h1 | h2
    · subst h1
      rw [assocLookup, if_pos rfl]
    · have hne : q.1 ≠ p.1 := by
        intro he
        exact hnd.1 (he ▸ List.mem_map_of_mem Prod.fst h2)
      rw [assocLookup, if_neg hne]
      exact ih hnd.2 p h2

/-- Filtering the key sequence by a lookup of the active flag agrees with
filtering the pair list by the active flag, provided each pair resolves to
itself. -/
theorem keys_filter_lookup (L : List (Nat × Entity)) :
    ∀ (l : List (Nat × Entity)),
      (∀ p ∈ l, assocLookup L p.1 = some p.2) →
      (l.map Prod.fst).filter (fun id =>
          match assocLookup L id with
          | some e => e.active_
          | none => false)
        = (l.filter (fun p => p.2.active_)).map Prod.fst := by
  intro l
  induction l with
  | nil => intro _; rfl
  | cons p rest ih =>
    intro hL
    have hp := hL p (List.mem_cons_self p rest)
    have hrest := ih (fun q hq => hL q (List.mem_cons_of_mem p hq))
    rw [List.map_cons, List.filter_cons, List.filter_cons]
    cases ha : p.2.active_ with
    | true => simp [hp, ha, hrest]
    | false => simp [hp, ha, hrest]

/-- A callback that never touches the entity store leaves a `for_each`
pass over the original keys intact: the final store is unchanged and the
visit sequence is exactly the keys active at entry. -/
theorem forEachGo_preserves (f : Nat → EntityManager → EntityManager)
    (hf : ∀ id mm, (f id mm).entities_ = mm.entities_) :
    ∀ (ids : List Nat) (m : EntityManager),
      (forEachGo f ids m).1.entities_ = m.entities_
      ∧ (forEachGo f ids m).2 = ids.filter (activeInMgr m) := by
  intro ids
  induction ids with
  | nil => intro m; exact ⟨rfl, rfl⟩
  | cons id rest ih =>
    intro m
    rw [forEachGo]
    cases hl : assocLookup m.entities_ id with
    | none =>
      have hact : activeInMgr m id = false := by simp [activeInMgr, hl]
      rw [List.filter_cons]
      simp only [hact, Bool.false_eq_true, if_false]
      exact ih m
    | some e =>
      cases ha : e.active_ with
      | false =>
        have hact : activeInMgr m id = false := by simp [activeInMgr, hl, ha]
        rw [List.filter_cons]
        simp only [hact, Bool.false_eq_true, if_false, ha]
        exact ih m
      | true =>
        have hact : activeInMgr m id = true := by simp [activeInMgr, hl, ha]
        have hm2 : (f id m).entities_ = m.entities_ := hf id m
        have hsame : activeInMgr (f id m) = activeInMgr m := by
          funext j
          unfold activeInMgr
          rw [hm2]
        have ih2 := ih (f id m)
        rw [List.filter_cons]
        simp only [hact, if_pos rfl, ha, if_true]
        refine ⟨ih2.1.trans hm2, ?_⟩
        simp only [ih2.2, hsame]

/-- C6.  `destroy_entity(id)` only enqueues the id: the entity store, the
id counter and every query (`get_entity`, `find_entity`,
`find_entities_with`, `for_each`) are unchanged; destruction requested
inside a `for_each` callback does not affect that iteration's pass (the
visit sequence is exactly the entities active at entry and the store is
intact afterwards); the entity is removed exactly when
`process_pending_destroys` runs. -/
theorem destroy_entity_deferred (m : EntityManager) (id : Nat) (g : Nat → Nat)
    (hnd : (m.entities_.map Prod.fst).Nodup) :
    ((m.destroy_entity id).entities_ = m.entities_
      ∧ (m.destroy_entity id).next_id_ = m.next_id_
      ∧ (m.destroy_entity id).pending_destroy_ = m.pending_destroy_ ++ [id])
    ∧ (∀ j, (m.destroy_entity id).get_entity j = m.get_entity j)
    ∧ (∀ nm, (m.destroy_entity id).find_entity nm = m.find_entity nm)
    ∧ (∀ k, (m.destroy_entity id).find_entities_with k = m.find_entities_with k)
    ∧ ((m.for_each_run (fun i mm => mm.destroy_entity (g i))).1.entities_
          = m.entities_
      ∧ (m.for_each_run (fun i mm => mm.destroy_entity (g i))).2
          = (m.entities_.filter (fun p => p.2.active_)).map Prod.fst)
    ∧ ((m.destroy_entity id).process_pending_destroys.get_entity id = none
      ∧ (m.destroy_entity id).process_pending_destroys.pending_destroy_ = []) := by
  have hrun := forEachGo_preserves (fun i mm => mm.destroy_entity (g i))
    (fun _ _ => rfl) (m.entities_.map Prod.fst) m
  refine ⟨⟨rfl, rfl, rfl⟩, fun j => rfl, fun nm => rfl, fun k => rfl, ⟨hrun.1, ?_⟩, ?_, rfl⟩
  · unfold EntityManager.for_each_run
    rw [hrun.2]
    exact keys_filter_lookup m.entities_ m.entities_
      (assocLookup_self_of_nodup m.entities_ hnd)
  · unfold EntityManager.process_pending_destroys EntityManager.get_entity
    exact assocLookup_foldl_eraseId_mem _ _ id
      (List.mem_append_right _ (List.mem_singleton.2 rfl))

/-- Witness for C6: a registry with one active and one inactive entity,
destroying entity 1 from inside the pass. -/
theorem destroy_entity_deferred_witness :
    (mgr0.entities_.map Prod.fst).Nodup
    ∧ (mgr0.for_each_run (fun i mm => mm.destroy_entity i)).2 = [1]
    ∧ (mgr0.destroy_entity 1).process_pending_destroys.get_entity 1 = none := by
  have h := destroy_entity_deferred mgr0 1 (fun i => i) (by decide)
  refine ⟨by decide, ?_, h.2.2.2.2.2.1⟩
  rw [h.2.2.2.2.1.2]
  decide

/-- C3 (amended).  `Scene::render_sprites` submits, inside exactly one
begin_batch/end_batch bracket, the (Transform, SpriteRenderer) pairs of
the active entities whose transform is present and whose sprite renderer
is enabled (the transform's own enabled flag is not consulted), sorted by
integer layer ascending; the submitted list is a permutation of the
gathered list.  (The code sorts with `std::sort`, which does not promise a
stable order among equal layers.) -/
theorem render_sprites_batched_sorted (es : List (Nat × Entity)) :
    renderSprites es
      = [RenderEvent.begin_batch]
        ++ (sortedSprites es).map (fun e => RenderEvent.draw (mkSprite e))
        ++ [RenderEvent.end_batch]
    ∧ List.Sorted layerLE (sortedSprites es)
    ∧ (sortedSprites es).Perm (gatherSprites es)
    ∧ (∀ entry : SpriteEntry, entry ∈ sortedSprites es ↔
        ∃ p ∈ es, p.2.active_ = true
          ∧ p.2.transformData = some entry.t
          ∧ p.2.spriteComp = some (true, entry.s)
          ∧ entry.layer = entry.s.layer) := by
  refine ⟨rfl, List.sorted_insertionSort layerLE (gatherSprites es),
    List.perm_insertionSort layerLE (gatherSprites es), ?_⟩
  intro entry
  obtain ⟨t, s, l⟩ := entry
  rw [sortedSprites, List.mem_insertionSort]
  unfold gatherSprites
  rw [List.mem_filterMap]
  constructor
  · rintro ⟨p, hp, hf⟩
    refine ⟨p, hp, ?_⟩
    cases ha : p.2.active_ with
    | false => rw [ha] at hf; simp at hf
    | true =>
      rw [ha] at hf
      simp only [if_true] at hf
      cases ht : p.2.transformData with
      | none => rw [ht] at hf; simp at hf
      | some t2 =>
        cases hs : p.2.spriteComp with
        | none => rw [ht, hs] at hf; simp at hf
        | some pr =>
          obtain ⟨en, s2⟩ := pr
          rw [ht, hs] at hf
          cases en with
          | false => simp at hf
          | true =>
            simp only [if_true, Option.some.injEq, SpriteEntry.mk.injEq] at hf
            obtain ⟨h1, h2, h3⟩ := hf
            subst h1
            subst h2
            exact ⟨rfl, rfl, rfl, h3.symm⟩
  · rintro ⟨p, hp, ha, ht, hs, hl⟩
    refine ⟨p, hp, ?_⟩
    rw [ha, ht, hs]
    simp only [SpriteEntry.mk.injEq] at hl ⊢
    simp [hl]

/-- C3 counterexample: an active entity with a disabled `Transform` and an
enabled `SpriteRenderer` is gathered by the code (scene.cpp:59 checks only
`sprite->is_enabled()`), but excluded by the claim's "both components
enabled" condition. -/
theorem render_gather_enabled_counterexample :
    gatherSprites [(1, ceTransformOff)] ≠ specGatherSprites [(1, ceTransformOff)]
    ∧ gatherSprites [(1, ceTransformOff)]
        = [⟨defaultTransform, defaultSprite, 0⟩]
    ∧ specGatherSprites [(1, ceTransformOff)] = [] := by
  have h1 : gatherSprites [(1, ceTransformOff)]
      = [⟨defaultTransform, defaultSprite, 0⟩] := rfl
  have h2 : specGatherSprites [(1, ceTransformOff)] = [] := rfl
  refine ⟨?_, h1, h2⟩
  rw [h1, h2]
  simp

/-- What a kept entry records: its coordinates, its depth key computed
from the map, and the fact that the tile there is not empty. -/
theorem visible_entry_props {m : TileMap} {iso : Isometric} {vp : Rect}
    {tx ty : Int} {e : TileEntry}
    (h : m.visible_entry iso vp tx ty = some e) :
    e.x = tx ∧ e.y = ty
    ∧ e.depth = Isometric.tile_depth tx ty + (m.tile_at tx ty).height * 1000
    ∧ (m.tile_at tx ty).is_empty = false := by
  simp only [TileMap.visible_entry] at h
  split at h
  next hemp => exact absurd h (by simp)
  next hemp =>
    split at h
    next hmargin =>
      injection h with h2
      subst h2
      exact ⟨rfl, rfl, rfl, by simpa using hemp⟩
    next hmargin => exact absurd h (by simp)

/-- Every collected entry arises from `visible_entry` at some coordinate. -/
theorem mem_collectVisible {m : TileMap} {iso : Isometric} {vp : Rect}
    {e : TileEntry} (h : e ∈ m.collectVisible iso vp) :
    ∃ tx ty, m.visible_entry iso vp tx ty = some e := by
  simp only [TileMap.collectVisible] at h
  split at h
  · cases h
  · rw [List.mem_flatMap] at h
    obtain ⟨ty, _, hmem⟩ := h
    rw [List.mem_filterMap] at hmem
    obtain ⟨tx, _, hfx⟩ := hmem
    exact ⟨tx, ty, hfx⟩

/-- C4.  For every tile map, camera state and viewport,
`for_each_visible` delivers its kept tiles in non-decreasing order of the
depth key `tile_depth(x, y) + height × 1000`, and never delivers a tile
with `tile_id` 0. -/
theorem for_each_visible_depth_ordered (m : TileMap) (iso : Isometric) (vp : Rect) :
    List.Sorted (fun a b => deliveredKey a ≤ deliveredKey b)
      (m.for_each_visible iso vp)
    ∧ ∀ d ∈ m.for_each_visible iso vp, d.tile.is_empty = false := by
  constructor
  · unfold TileMap.for_each_visible List.Sorted
    rw [List.pairwise_map]
    apply List.Pairwise.imp_of_mem ?_
      (List.sorted_insertionSort depthLE (m.collectVisible iso vp))
    intro a b hma hmb hab
    obtain ⟨txa, tya, ha⟩ := mem_collectVisible ((List.mem_insertionSort depthLE).1 hma)
    obtain ⟨txb, tyb, hb⟩ := mem_collectVisible ((List.mem_insertionSort depthLE).1 hmb)
    obtain ⟨hax, hay, had, _⟩ := visible_entry_props ha
    obtain ⟨hbx, hby, hbd, _⟩ := visible_entry_props hb
    show deliveredKey ⟨a.x, a.y, m.tile_at a.x a.y, a.screen_x, a.screen_y⟩
      ≤ deliveredKey ⟨b.x, b.y, m.tile_at b.x b.y, b.screen_x, b.screen_y⟩
    unfold deliveredKey
    simp only
    rw [hax, hay, hbx, hby, ← had, ← hbd]
    exact hab
  · intro d hd
    unfold TileMap.for_each_visible at hd
    rw [List.mem_map] at hd
    obtain ⟨e, hme, hde⟩ := hd
    obtain ⟨tx, ty, he⟩ := mem_collectVisible ((List.mem_insertionSort depthLE).1 hme)
    obtain ⟨hex, hey, _, hemp⟩ := visible_entry_props he
    rw [← hde]
    simp only
    rw [hex, hey]
    exact hemp

/-- The clamped frame number indexes into the frame list. -/
theorem clamp_toNat_lt (fn : Int) (n : Nat) (hn : 1 ≤ n) :
    (max (min fn ((n : Int) - 1)) 0).toNat < n := by
  have h1 : min fn ((n : Int) - 1) ≤ (n : Int) - 1 := min_le_right _ _
  have h2 : max (min fn ((n : Int) - 1)) 0 ≤ (n : Int) - 1 := by
    apply max_le h1
    omega
  omega

/-- Sampling the clamped time `n·d − 0.0001` at frame duration `d` lands on
frame `n − 1` whenever `d` is at least the 0.0001 clamp. -/
theorem floor_sub_eps_div (n : Nat) (d : ℚ)
    (hd : (1 : ℚ) / 10000 ≤ d) :
    ⌊((n : ℚ) * d - 1 / 10000) / d⌋ = (n : Int) - 1 := by
  have hd0 : (0 : ℚ) < d := lt_of_lt_of_le (by norm_num) hd
  refine Int.floor_eq_iff.2 ⟨?_, ?_⟩
  · rw [le_div_iff₀ hd0]
    push_cast
    have hexp : ((n : ℚ) - 1) * d = (n : ℚ) * d - d := by ring
    rw [hexp]
    linarith
  · rw [div_lt_iff₀ hd0]
    push_cast
    have hexp : ((n : ℚ) - 1 + 1) * d = (n : ℚ) * d := by ring
    rw [hexp]
    linarith

/-- The default-value variant of indexing at the last position. -/
theorem getD_length_sub_one (l : List Int) (h : l ≠ []) (d : Int) :
    l.getD (l.length - 1) d = l.getLast h := by
  have hlt : l.length - 1 < l.length := by
    have := List.length_pos.2 h
    omega
  rw [List.getD_eq_getElem l d hlt, List.getLast_eq_getElem]

/-- `animation_frame_index` of a non-looping animation at or past its
total duration is the last frame, provided the frame duration is at least
the code's 0.0001 clamp. -/
theorem animation_frame_index_at_end (sh : SpriteSheet) (nm : String)
    (anim : Animation) (hanim : sh.animation nm = some anim)
    (hloop : anim.looping = false) (hne : anim.frame_indices ≠ [])
    (hdur : (1 : ℚ) / 10000 ≤ anim.frame_duration)
    (time : ℚ) (htot : anim.total_duration ≤ time) :
    sh.animation_frame_index nm time = anim.frame_indices.getLast hne := by
  have hn1 : 1 ≤ anim.frame_indices.length := List.length_pos.2 hne
  have hd0 : (0 : ℚ) < anim.frame_duration := lt_of_lt_of_le (by norm_num) hdur
  have hcast : (1 : ℚ) ≤ (anim.frame_indices.length : ℚ) := by exact_mod_cast hn1
  have htotd : anim.frame_duration ≤ anim.total_duration := by
    unfold Animation.total_duration Animation.frame_count
    push_cast
    nlinarith
  have htotpos : (0 : ℚ) < anim.total_duration := lt_of_lt_of_le hd0 htotd
  have heps : (1 : ℚ) / 10000 ≤ anim.total_duration := le_trans hdur htotd
  have hemp : anim.frame_indices.isEmpty = false := by
    simp [List.isEmpty_iff, hne]
  unfold SpriteSheet.animation_frame_index
  rw [hanim]
  simp only [hemp, Bool.false_eq_true, if_false, hloop, Animation.frame_count]
  rw [if_neg (not_le.2 htotpos)]
  have hmin : min time (anim.total_duration - 1 / 10000)
      = anim.total_duration - 1 / 10000 := min_eq_right (by linarith)
  have hmax : max (anim.total_duration - 1 / 10000) 0
      = anim.total_duration - 1 / 10000 := max_eq_left (by linarith)
  rw [hmin, hmax]
  have harg : (0 : ℚ) ≤ (anim.total_duration - 1 / 10000) / anim.frame_duration :=
    div_nonneg (by linarith) (le_of_lt hd0)
  have htr : ratTrunc ((anim.total_duration - 1 / 10000) / anim.frame_duration)
      = (anim.frame_indices.length : Int) - 1 := by
    unfold ratTrunc
    rw [if_neg (not_lt.2 harg)]
    unfold Animation.total_duration Animation.frame_count
    push_cast
    exact floor_sub_eps_div anim.frame_indices.length anim.frame_duration hdur
  rw [htr]
  rw [min_self]
  have hmax2 : max ((anim.frame_indices.length : Int) - 1) 0
      = (anim.frame_indices.length : Int) - 1 := max_eq_left (by omega)
  rw [hmax2]
  have htn : ((anim.frame_indices.length : Int) - 1).toNat
      = anim.frame_indices.length - 1 := by omega
  rw [htn]
  exact getD_length_sub_one anim.frame_indices hne 0

/-- `animation_frame_index` always lands inside the frame list. -/
theorem animation_frame_index_in_range (sh : SpriteSheet) (nm : String)
    (anim : Animation) (hanim : sh.animation nm = some anim)
    (hne : anim.frame_indices ≠ []) (time : ℚ) :
    ∃ k : Nat, k < anim.frame_indices.length
      ∧ sh.animation_frame_index nm time = anim.frame_indices.getD k 0 := by
  have hn1 : 1 ≤ anim.frame_indices.length := List.length_pos.2 hne
  have hemp : anim.frame_indices.isEmpty = false := by
    simp [List.isEmpty_iff, hne]
  unfold SpriteSheet.animation_frame_index
  rw [hanim]
  simp only [hemp, Bool.false_eq_true, if_false, Animation.frame_count]
  by_cases htot : anim.total_duration ≤ 0
  · rw [if_pos htot]
    refine ⟨0, by omega, ?_⟩
    cases hl : anim.frame_indices with
    | nil => exact absurd hl hne
    | cons x t => simp [hl]
  · rw [if_neg htot]
    exact ⟨_, clamp_toNat_lt _ _ hn1, rfl⟩

/-- C7 (amended).  For an animator bound to a sheet whose current
non-looping animation exists and has at least one frame:
`is_finished()` is true exactly when the elapsed time has reached
`frame_count × frame_duration`; once playback has stopped, further
`update(dt)` calls change nothing, and any update that reaches the total
duration clears the playing flag; the reported frame always lies within
the animation, and — provided the frame duration is at least the code's
0.0001-second sampling clamp — a finished animation reports exactly its
last frame. -/
theorem animator_non_looping_finishes (a : Animator) (sh : SpriteSheet)
    (anim : Animation)
    (hsheet : a.sheet_ = some sh)
    (hanim : sh.animation a.current_anim_ = some anim)
    (hloop : anim.looping = false)
    (hne : anim.frame_indices ≠ [])
    (hdur : (1 : ℚ) / 10000 ≤ anim.frame_duration) :
    (a.is_finished = decide (anim.total_duration ≤ a.elapsed_))
    ∧ (∀ dt, a.playing_ = false → a.update dt = a)
    ∧ (∀ dt, anim.total_duration ≤ (a.update dt).elapsed_ →
        (a.update dt).playing_ = false)
    ∧ (anim.total_duration ≤ a.elapsed_ →
        sh.animation_frame_index a.current_anim_ a.elapsed_
          = anim.frame_indices.getLast hne)
    ∧ (∀ time : ℚ, ∃ k : Nat, k < anim.frame_indices.length
        ∧ sh.animation_frame_index a.current_anim_ time
            = anim.frame_indices.getD k 0) := by
  refine ⟨?_, ?_, ?_, ?_, ?_⟩
  · simp [Animator.is_finished, hsheet, hanim, hloop]
  · intro dt h
    simp [Animator.update, h]
  · intro dt h
    cases hp : a.playing_ with
    | false => simp [Animator.update, hp]
    | true =>
      by_cases hcond : anim.looping = false ∧
          anim.total_duration ≤ a.elapsed_ + dt * a.speed
      · simp [Animator.update, hp, hsheet, hanim, hcond]
      · exfalso
        simp [Animator.update, hp, hsheet, hanim, hcond] at h
        exact hcond ⟨hloop, h⟩
  · intro htot
    exact animation_frame_index_at_end sh a.current_anim_ anim hanim hloop hne
      hdur a.elapsed_ htot
  · intro time
    exact animation_frame_index_in_range sh a.current_anim_ anim hanim hne time

/-- C7 counterexample: with frame duration 1/20000 s (below the 0.0001
sampling clamp), a two-frame non-looping animation that has exactly
reached its total duration reports finished yet samples its first frame
(5), not its last frame (6) — so "remains on the last frame" is false as
stated. -/
theorem animator_last_frame_counterexample :
    Animator.is_finished ⟨some sheetCe, "blink", 1 / 10000, false, 1⟩ = true
    ∧ sheetCe.animation_frame_index "blink" (1 / 10000) = 5
    ∧ ([5, 6] : List Int).getLast (by decide) = 6 := by
  have hanim : sheetCe.animation "blink" = some ⟨[5, 6], 1 / 20000, false⟩ := by
    simp [sheetCe, SpriteSheet.animation, assocLookup]
  refine ⟨?_, ?_, rfl⟩
  · simp only [Animator.is_finished, hanim]
    rw [if_neg (by decide : ¬((⟨[5, 6], 1 / 20000, false⟩ : Animation).looping = true))]
    rw [decide_eq_true_eq]
    norm_num [Animation.total_duration, Animation.frame_count]
  · unfold SpriteSheet.animation_frame_index
    rw [hanim]
    have htot : (⟨[5, 6], 1 / 20000, false⟩ : Animation).total_duration = 1 / 10000 := by
      norm_num [Animation.total_duration, Animation.frame_count]
    simp only [Animation.frame_count, htot]
    rw [if_neg (by norm_num : ¬(([5, 6] : List Int).isEmpty = true))]
    rw [if_neg (by norm_num : ¬((1 : ℚ) / 10000 ≤ 0))]
    rw [if_neg (by decide : ¬(false = true))]
    have hmin : min ((1 : ℚ) / 10000) ((1 : ℚ) / 10000 - 1 / 10000) = 0 := by
      rw [min_eq_right] <;> norm_num
    rw [hmin]
    have hmax : max (0 : ℚ) 0 = 0 := max_self 0
    rw [hmax]
    have htr : ratTrunc ((0 : ℚ) / (1 / 20000)) = 0 := by
      rw [zero_div]
      unfold ratTrunc
      rw [if_neg (by norm_num : ¬((0 : ℚ) < 0))]
      exact Int.floor_zero
    rw [htr]
    rfl

/-- Witness for C7 at `anim0` (three frames, 0.1 s each, non-looping) in
`animator0` (elapsed 0.5 s ≥ total 0.3 s). -/
theorem animator_non_looping_finishes_witness :
    sheet0.animation_frame_index "walk" (1 / 2) = 7
    ∧ Animator.is_finished animator0 = true := by
  have hanim : sheet0.animation "walk" = some anim0 := by
    simp [sheet0, SpriteSheet.animation, assocLookup]
  have h := animator_non_looping_finishes animator0 sheet0 anim0 rfl hanim rfl
    (by simp [anim0]) (by norm_num [anim0])
  have htot : anim0.total_duration ≤ animator0.elapsed_ := by
    norm_num [anim0, animator0, Animation.total_duration, Animation.frame_count]
  constructor
  · have h4 := h.2.2.2.1 htot
    simpa [animator0, anim0] using h4
  · rw [h.1, decide_eq_true_eq]
    exact htot
